import Mathlib

/-!
Verification development for the yanki-mcp-server protocol adapter
(src/index.ts).  JavaScript strings are embedded as `List Char`; the
regex-based content normalizer, the tool-call handlers, the deck
provisioner and the transport shims are translated into executable
Lean definitions, and the specified properties are settled against
them.
-/

/-- Convert a Lean string literal to the character-list representation used
for JavaScript strings throughout this development. -/
def chars (s : String) : List Char := s.data

/-- The whitespace characters recognised by JavaScript string trimming
(space, tab, newline, carriage return, vertical tab, form feed,
non-breaking space). -/
def isWS (c : Char) : Bool :=
  c = ' ' || c = '\t' || c = '\n' || c = '\r' ||
  c = Char.ofNat 11 || c = Char.ofNat 12 || c = Char.ofNat 160

/-- Right-hand side of JavaScript string trimming. -/
def trimEnd (l : List Char) : List Char := (l.reverse.dropWhile isWS).reverse

/-- JavaScript String.prototype.trim over a character list. -/
def trimJS (l : List Char) : List Char := trimEnd (l.dropWhile isWS)

/-- JavaScript String.prototype.split with a newline separator: the empty
string splits into one empty chunk, and every newline starts a new chunk. -/
def splitNL : List Char → List (List Char)
  | [] => [[]]
  | c :: cs =>
    if c = '\n' then [] :: splitNL cs
    else
      match splitNL cs with
      | [] => [[c]]
      | l :: ls => (c :: l) :: ls

/-- Array.prototype.join with a newline separator. -/
def joinNL : List (List Char) → List Char
  | [] => []
  | [l] => l
  | l :: ls => l ++ '\n' :: joinNL ls

/-- Final clean-up stage of the normalizer: split on newline, trim each
line, drop empty lines, join with newline (lines 223-226 of src/index.ts). -/
def tidyLines (s : List Char) : List Char :=
  joinNL (((splitNL s).map trimJS).filter (fun l => decide (0 < l.length)))

/-- One global-pattern pass of JavaScript String.replace: scan left to
right; at each position try the matcher, which yields the match length and
the replacement text; on a match emit the replacement and resume after the
matched characters, otherwise keep the character.  All matchers used here
match at least one character, so fuel equal to the input length suffices. -/
def scanR (f : List Char → Option (Nat × List Char)) : Nat → List Char → List Char
  | _, [] => []
  | 0, l => l
  | fuel + 1, c :: cs =>
    match f (c :: cs) with
    | some (n, r) => r ++ scanR f fuel (List.drop (n - 1) cs)
    | none => c :: scanR f fuel cs

/-- JavaScript String.replace with a global pattern, via `scanR`. -/
def replaceAll (f : List Char → Option (Nat × List Char)) (l : List Char) : List Char :=
  scanR f l.length l

/-- Lower-case a Latin letter, for case-insensitive regex flags. -/
def lcase (c : Char) : Char :=
  if 'A' ≤ c && c ≤ 'Z' then Char.ofNat (c.toNat + 32) else c

/-- Case-insensitive prefix test. -/
def ciPrefix : List Char → List Char → Bool
  | [], _ => true
  | _ :: _, [] => false
  | p :: ps, c :: cs => (lcase c == lcase p) && ciPrefix ps cs

/-- Index of the first occurrence of a character, if any. -/
def idxOf? (t : Char) : List Char → Option Nat
  | [] => none
  | c :: cs => if c = t then some 0 else (idxOf? t cs).map (fun n => n + 1)

/-- Index of the first case-insensitive occurrence of a pattern, if any. -/
def findCI (pat : List Char) : List Char → Option Nat
  | [] => if ciPrefix pat [] then some 0 else none
  | c :: cs =>
    if ciPrefix pat (c :: cs) then some 0
    else (findCI pat cs).map (fun n => n + 1)

/-- Matcher for the style-block regex of line 209: a less-than, "style"
case-insensitively, a run of characters other than greater-than, a
greater-than, then lazily anything up to the first case-insensitive
closing style tag.  Replacement: empty. -/
def styleMatch (l : List Char) : Option (Nat × List Char) :=
  match l with
  | [] => none
  | c :: rest =>
    if c = '<' && ciPrefix (chars ("style")) rest then
      match idxOf? '>' (rest.drop 5) with
      | none => none
      | some k =>
        match findCI (chars ("</style>")) (rest.drop (5 + k + 1)) with
        | none => none
        | some j => some (1 + 5 + k + 1 + j + 8, [])
    else none

/-- Matcher for the opening-div regex of line 211; replacement: newline. -/
def divMatch (l : List Char) : Option (Nat × List Char) :=
  match l with
  | [] => none
  | c :: rest =>
    if c = '<' && (chars ("div")).isPrefixOf rest then
      match idxOf? '>' (rest.drop 3) with
      | none => none
      | some k => some (1 + 3 + k + 1, chars ("\n"))
    else none

/-- Matcher for the tag-stripping regex of line 213: a less-than, at least
one character other than greater-than, a greater-than; replacement: one
space. -/
def tagMatch (l : List Char) : Option (Nat × List Char) :=
  match l with
  | [] => none
  | c :: rest =>
    if c = '<' then
      match idxOf? '>' rest with
      | none => none
      | some k => if 1 ≤ k then some (1 + k + 1, chars (" ")) else none
    else none

/-- Matcher for the anki play-directive regex of line 215; replacement:
empty. -/
def playMatch (l : List Char) : Option (Nat × List Char) :=
  match l with
  | [] => none
  | c :: rest =>
    if c = '[' && (chars ("anki:play:")).isPrefixOf rest then
      match idxOf? ']' (rest.drop 10) with
      | none => none
      | some k => if 1 ≤ k then some (1 + 10 + k + 1, []) else none
    else none

/-- Matcher for a literal pattern, with the given replacement text. -/
def litMatch (pat repl : List Char) (l : List Char) : Option (Nat × List Char) :=
  if pat.isPrefixOf l then some (pat.length, repl) else none

/-- Embedding of cleanWithRegex (src/index.ts lines 205-228): strip style
blocks, turn opening div tags into newlines, replace remaining tags by a
space, drop anki play directives, decode the five entities in source order
(nbsp, amp, lt, gt, quot), then trim lines and drop the empty ones. -/
def cleanWithRegex (s : List Char) : List Char :=
  tidyLines
    (replaceAll (litMatch (chars ("&quot;")) (chars ("\"")))
      (replaceAll (litMatch (chars ("&gt;")) (chars (">")))
        (replaceAll (litMatch (chars ("&lt;")) (chars ("<")))
          (replaceAll (litMatch (chars ("&amp;")) (chars ("&")))
            (replaceAll (litMatch (chars ("&nbsp;")) (chars (" ")))
              (replaceAll playMatch
                (replaceAll tagMatch
                  (replaceAll divMatch
                    (replaceAll styleMatch s)))))))))

/-- A card as assembled by findCardsAndOrder (lines 121-126). -/
structure Card where
  cardId : Int
  question : List Char
  answer : List Char
  due : Int
deriving DecidableEq

/-- A raw card record as returned by the backend cardsInfo call. -/
structure RawCard where
  cardId : Int
  question : List Char
  answer : List Char
  due : Int
deriving DecidableEq

/-- The per-record translation done inside findCardsAndOrder. -/
def toCard (r : RawCard) : Card :=
  ⟨r.cardId, cleanWithRegex r.question, cleanWithRegex r.answer, r.due⟩

/-- The ascending-due comparator of line 127. -/
def dueLe (a b : Card) : Bool := decide (a.due ≤ b.due)

/-- Embedding of findCardsAndOrder (lines 116-130): map the backend records
to cards, normalizing both text fields, and sort ascending by due key (the
JavaScript runtime sort is stable, as is mergeSort). -/
def findCardsAndOrder (raw : List RawCard) : List Card :=
  (raw.map toCard).mergeSort dueLe

/-- A JavaScript number as produced by the Number conversion of the num
argument: an integer or NaN. -/
inductive JsNum where
  | int (n : Int)
  | nan
deriving DecidableEq

/-- JavaScript Array.prototype.slice(0, num): a NaN bound converts to 0, a
negative bound counts from the end, an overlarge bound is clamped. -/
def jsSlice0 {α : Type} (l : List α) : JsNum → List α
  | JsNum.nan => []
  | JsNum.int n => if n < 0 then l.take (l.length - (-n).toNat) else l.take n.toNat

/-- The get_due_cards tool handler (lines 393-406), given the card records
the backend reports for the due query. -/
def getDueCards (raw : List RawCard) (num : JsNum) : List Card :=
  jsSlice0 (findCardsAndOrder raw) num

/-- The get_new_cards tool handler (lines 408-421), given the card records
the backend reports for the new query. -/
def getNewCards (raw : List RawCard) (num : JsNum) : List Card :=
  jsSlice0 (findCardsAndOrder raw) num

/-- An entry of the answers array of update_cards. -/
structure Answer where
  cardId : Int
  ease : Int
deriving DecidableEq

/-- JavaScript Array.prototype.filter with the element index passed to the
callback (as used at lines 331-334), from a given starting index. -/
def filterIdxAux {α : Type} (p : Nat → α → Bool) (i : Nat) : List α → List α
  | [] => []
  | a :: as => if p i a then a :: filterIdxAux p (i + 1) as else filterIdxAux p (i + 1) as

/-- JavaScript Array.prototype.filter with the element index. -/
def filterIdx {α : Type} (p : Nat → α → Bool) (l : List α) : List α :=
  filterIdxAux p 0 l

/-- Array.prototype.join with a comma separator, over card identifiers. -/
def joinComma (l : List Int) : String := String.intercalate (", ") (l.map toString)

/-- Embedding of the update_cards tool handler (lines 327-351), given the
answers array and the positional boolean result array of the backend
batch-answer call; an index beyond the end of the result array reads as the
falsy undefined.  The source's successfulCards and failedCards bindings are
inlined. -/
def updateCards (answers : List Answer) (result : List Bool) : Except String String :=
  if 0 < (filterIdx (fun i _ => !result.getD i false) answers).length then
    Except.error (("Failed to update cards with IDs: ") ++
      joinComma ((filterIdx (fun i _ => !result.getD i false) answers).map Answer.cardId))
  else
    Except.ok (("Updated cards ") ++
      joinComma ((filterIdx (fun i _ => result.getD i false) answers).map Answer.cardId))

/-- Specification-side description of the identifiers of the answers that
sit at falsy positions of the backend result array. -/
def falsyIds (answers : List Answer) (result : List Bool) : List Int :=
  (answers.enum.filter (fun p => !result.getD p.1 false)).map (fun p => p.2.cardId)

/-- A JavaScript thrown value, reduced to what createDeckIfNeeded inspects
at lines 179-180: the extracted message (the value itself when it is a
string, else its message property), when that extraction is a string. -/
structure Thrown where
  msg : Option (List Char)
deriving DecidableEq

/-- JavaScript String.prototype.includes. -/
def containsSub (pat : List Char) : List Char → Bool
  | [] => pat.isEmpty
  | c :: cs => pat.isPrefixOf (c :: cs) || containsSub pat cs

/-- The already-exists test of lines 179-180. -/
def hasAlready (e : Thrown) : Bool :=
  match e.msg with
  | some m => containsSub (chars ("already exists")) m
  | none => false

/-- The check that a deck-names result is a truthy array containing the
target (lines 160 and 189-190): `none` models any throw-free non-array
result, including the null produced by the startup wrapper. -/
def jsIncludes (v : Option (List String)) (d : String) : Bool :=
  match v with
  | some l => l.contains d
  | none => false

/-- Tags for the backend calls createDeckIfNeeded can issue. -/
inductive Call where
  | deckNamesCall
  | createDeckCall
  | cloneCfgCall
  | setCfgCall
deriving DecidableEq

/-- Outcomes of the individual backend call sites during one
createDeckIfNeeded run: each site either throws or returns a value, and a
deck-name listing may return a non-array value. -/
structure Backend where
  deckNames1 : Except Thrown (Option (List String))
  createDeck1 : Except Thrown Unit
  cloneCfg1 : Except Thrown Unit
  setCfg1 : Except Thrown Unit
  deckNames2 : Except Thrown (Option (List String))
  deckNames3 : Except Thrown (Option (List String))

/-- The outer catch of lines 192-201: one more deck-name listing, whose own
failure yields false.  Also returns the calls issued. -/
def deckFallback (b : Backend) (d : String) : Except Thrown Bool × List Call :=
  match b.deckNames3 with
  | Except.ok v => (Except.ok (jsIncludes v d), [Call.deckNamesCall])
  | Except.error _ => (Except.ok false, [Call.deckNamesCall])

/-- The inner try of lines 164-177: create the deck, clone the default
configuration, associate it; stops at the first failure. -/
def innerCreate (b : Backend) : Except Thrown Unit × List Call :=
  match b.createDeck1 with
  | Except.error e => (Except.error e, [Call.createDeckCall])
  | Except.ok _ =>
    match b.cloneCfg1 with
    | Except.error e => (Except.error e, [Call.createDeckCall, Call.cloneCfgCall])
    | Except.ok _ =>
      match b.setCfg1 with
      | Except.error e =>
        (Except.error e, [Call.createDeckCall, Call.cloneCfgCall, Call.setCfgCall])
      | Except.ok _ =>
        (Except.ok (), [Call.createDeckCall, Call.cloneCfgCall, Call.setCfgCall])

/-- Lines 187-191: confirm by listing deck names again; a failure here
escapes to the outer catch. -/
def confirmAfterCreate (b : Backend) (d : String) : Except Thrown Bool × List Call :=
  match b.deckNames2 with
  | Except.ok v => (Except.ok (jsIncludes v d), [Call.deckNamesCall])
  | Except.error _ =>
    let fb := deckFallback b d
    (fb.1, Call.deckNamesCall :: fb.2)

/-- The continuation after the inner try of lines 164-185: swallow an
already-exists failure and go on to the confirming listing; any other
failure escapes to the outer catch. -/
def afterCreate (b : Backend) (d : String) (inner : Except Thrown Unit × List Call) :
    Except Thrown Bool × List Call :=
  match inner.1 with
  | Except.ok _ =>
    let c := confirmAfterCreate b d
    (c.1, Call.deckNamesCall :: inner.2 ++ c.2)
  | Except.error e =>
    if hasAlready e then
      let c := confirmAfterCreate b d
      (c.1, Call.deckNamesCall :: inner.2 ++ c.2)
    else
      let fb := deckFallback b d
      (fb.1, Call.deckNamesCall :: inner.2 ++ fb.2)

/-- Embedding of createDeckIfNeeded (lines 157-202), instrumented with the
list of backend calls issued, in order. -/
def createDeckIfNeeded (b : Backend) (d : String) : Except Thrown Bool × List Call :=
  match b.deckNames1 with
  | Except.error _ =>
    let fb := deckFallback b d
    (fb.1, Call.deckNamesCall :: fb.2)
  | Except.ok v1 =>
    if jsIncludes v1 d then (Except.ok true, [Call.deckNamesCall])
    else afterCreate b d (innerCreate b)

/-- A deterministic truthful backend for one createDeckIfNeeded run: the
true deck set starts at s0, a concurrent creator may add the target deck
before the creation attempt, each call site may fail, and every deck-name
listing that succeeds reports the true current deck set. -/
structure DeckBackend where
  s0 : List String
  raceAdd : Bool
  fail1 : Bool
  createErr : Option Thrown
  cloneErr : Option Thrown
  setErr : Option Thrown
  fail2 : Bool
  fail3 : Bool

/-- The true deck set after the possible concurrent creation. -/
def raceSet (m : DeckBackend) (d : String) : List String :=
  if m.raceAdd then d :: m.s0 else m.s0

/-- Whether the code path reaches the creation attempt. -/
def createRuns (m : DeckBackend) (d : String) : Bool :=
  !m.fail1 && !(m.s0.contains d)

/-- The true deck set when the call returns. -/
def sFinal (m : DeckBackend) (d : String) : List String :=
  if createRuns m d && m.createErr.isNone then d :: raceSet m d else raceSet m d

/-- Whether the target deck exists after the call returns. -/
def deckExistsAfter (m : DeckBackend) (d : String) : Bool :=
  (sFinal m d).contains d

/-- A thrown value with no usable message. -/
def errThrown : Thrown := ⟨none⟩

/-- Turn an optional error into a call outcome. -/
def exceptOf : Option Thrown → Except Thrown Unit
  | some e => Except.error e
  | none => Except.ok ()

/-- The call-site outcomes induced by a truthful backend. -/
def toBackend (m : DeckBackend) (d : String) : Backend :=
  ⟨ if m.fail1 then Except.error errThrown else Except.ok (some m.s0)
  , exceptOf m.createErr
  , exceptOf m.cloneErr
  , exceptOf m.setErr
  , if m.fail2 then Except.error errThrown else Except.ok (some (sFinal m d))
  , if m.fail3 then Except.error errThrown else Except.ok (some (sFinal m d)) ⟩

/-- A chunk handed to the patched stdout write: either a string, or an
object whose toString either yields a string or throws. -/
inductive Chunk where
  | strVal (s : List Char)
  | objVal (o : Option (List Char))
deriving DecidableEq

/-- Line 466: obtain the chunk text; `none` models a throwing toString,
whose exception is caught at line 471. -/
def chunkToString : Chunk → Option (List Char)
  | Chunk.strVal s => some s
  | Chunk.objVal o => o

/-- The protocol envelope marker of line 467. -/
def jsonrpcMarker : List Char := chars ("\x7b\"jsonrpc\"")

/-- Embedding of the patched process.stdout.write (lines 460-474):
underlyingRet is the boolean the underlying stream write would return; the
first component is the chunk forwarded to the underlying stream, if any. -/
def patchedStdoutWrite (underlyingRet : Bool) (c : Chunk) : Option Chunk × Bool :=
  match chunkToString c with
  | some s =>
    if jsonrpcMarker.isPrefixOf (trimJS s) then (some c, underlyingRet)
    else (none, true)
  | none => (none, true)

/-- A JavaScript error as inspected by the startup method wrapper: whether
it is a SyntaxError, and its message text. -/
structure JsErr where
  isSyntaxErr : Bool
  message : List Char
deriving DecidableEq

/-- The deserialization-failure test of line 491. -/
def isJsonSyntaxErr (e : JsErr) : Bool :=
  e.isSyntaxErr && containsSub (chars ("JSON")) e.message

/-- Embedding of wrapMethod (lines 483-499), applied at startup to
deckNames, createDeck, addNote, findCards, cardsInfo and answerCards: the
wrapped call resolves to null (`none`) when the original call throws a
SyntaxError whose message mentions JSON, and propagates every other outcome
unchanged. -/
def wrapMethod {α : Type} (call : Except JsErr α) : Except JsErr (Option α) :=
  match call with
  | Except.ok a => Except.ok (some a)
  | Except.error e => if isJsonSyntaxErr e then Except.ok none else Except.error e

/-! Lemmas about trimming. -/

theorem dropWhile_head_false {α : Type} (p : α → Bool) :
    ∀ (l : List α) (c : α) (cs : List α), List.dropWhile p l = c :: cs → p c = false := by
  intro l
  induction l with
  | nil => intro c cs h; simp [List.dropWhile] at h
  | cons a as ih =>
    intro c cs h
    rw [List.dropWhile_cons] at h
    by_cases ha : p a = true
    · exact ih c cs (by simpa [ha] using h)
    · have hac : a = c := by
        simp [ha] at h
        exact h.1
      rw [← hac]
      simpa using ha

theorem dropWhile_dropWhile {α : Type} (p : α → Bool) (l : List α) :
    List.dropWhile p (List.dropWhile p l) = List.dropWhile p l := by
  cases h : List.dropWhile p l with
  | nil => rfl
  | cons c cs =>
    have hc := dropWhile_head_false p l c cs h
    rw [List.dropWhile_cons, hc]
    simp

theorem trimEnd_idem (l : List Char) : trimEnd (trimEnd l) = trimEnd l := by
  unfold trimEnd
  rw [List.reverse_reverse, dropWhile_dropWhile]

theorem trimEnd_front (l : List Char) : trimEnd l <+: l := by
  have h : trimEnd l <+: l.reverse.reverse := by
    unfold trimEnd
    exact Iff.mpr List.reverse_prefix (List.dropWhile_suffix isWS)
  simpa using h

theorem trimJS_idem (l : List Char) : trimJS (trimJS l) = trimJS l := by
  unfold trimJS
  cases hX : List.dropWhile isWS l with
  | nil => simp [trimEnd]
  | cons c cs =>
    have hc : isWS c = false := dropWhile_head_false isWS l c cs hX
    cases hA : trimEnd (c :: cs) with
    | nil => simp [hA, trimEnd]
    | cons a as =>
      rcases trimEnd_front (c :: cs) with ⟨t, ht⟩
      rw [hA] at ht
      have hac : a = c := by
        have := ht
        simp at this
        exact this.1
      have hdrop : List.dropWhile isWS (a :: as) = a :: as := by
        rw [List.dropWhile_cons, hac, hc]
        simp
      rw [hdrop, ← hA]
      exact trimEnd_idem _

theorem trimJS_sublist (l : List Char) : (trimJS l).Sublist l := by
  unfold trimJS
  exact ((trimEnd_front _).sublist).trans (List.dropWhile_suffix isWS).sublist

/-! Lemmas about splitting and joining on newlines. -/

theorem splitNL_ne_nil : ∀ l : List Char, splitNL l ≠ [] := by
  intro l
  cases l with
  | nil => simp [splitNL]
  | cons c cs =>
    by_cases h : c = '\n' <;> simp [splitNL, h]
    cases hs : splitNL cs <;> simp

theorem splitNL_no_nl : ∀ l : List Char, (∀ c ∈ l, ¬ c = '\n') → splitNL l = [l] := by
  intro l
  induction l with
  | nil => intro _; rfl
  | cons c cs ih =>
    intro h
    have hc : ¬ c = '\n' := h c (List.mem_cons_self c cs)
    have hcs := ih (fun x hx => h x (List.mem_cons_of_mem c hx))
    simp [splitNL, hc, hcs]

theorem splitNL_append (l r : List Char) (h : ∀ c ∈ l, ¬ c = '\n') :
    splitNL (l ++ '\n' :: r) = l :: splitNL r := by
  induction l with
  | nil => simp [splitNL]
  | cons c cs ih =>
    have hc : ¬ c = '\n' := h c (List.mem_cons_self c cs)
    have hcs := ih (fun x hx => h x (List.mem_cons_of_mem c hx))
    simp [splitNL, hc, hcs]

theorem mem_of_mem_splitNL :
    ∀ (l : List Char) (p : List Char), p ∈ splitNL l → ∀ c ∈ p, c ∈ l ∧ ¬ c = '\n' := by
  intro l
  induction l with
  | nil =>
    intro p hp c hc
    simp [splitNL] at hp
    subst hp
    simp at hc
  | cons a as ih =>
    intro p hp c hc
    by_cases ha : a = '\n'
    · simp [splitNL, ha] at hp
      rcases hp with hp | hp
      · subst hp; simp at hc
      · have := ih p hp c hc
        exact ⟨List.mem_cons_of_mem a this.1, this.2⟩
    · simp [splitNL, ha] at hp
      cases hs : splitNL as with
      | nil => exact absurd hs (splitNL_ne_nil as)
      | cons l0 ls =>
        rw [hs] at hp
        simp at hp
        rcases hp with hp | hp
        · subst hp
          rcases List.mem_cons.mp hc with hca | hcl
          · subst hca; exact ⟨List.mem_cons_self c as, ha⟩
          · have hl0 : l0 ∈ splitNL as := by rw [hs]; exact List.mem_cons_self l0 ls
            have := ih l0 hl0 c hcl
            exact ⟨List.mem_cons_of_mem a this.1, this.2⟩
        · have hpls : p ∈ splitNL as := by rw [hs]; exact List.mem_cons_of_mem l0 hp
          have := ih p hpls c hc
          exact ⟨List.mem_cons_of_mem a this.1, this.2⟩

theorem joinNL_cons_cons (l l2 : List Char) (ls : List (List Char)) :
    joinNL (l :: l2 :: ls) = l ++ '\n' :: joinNL (l2 :: ls) := rfl

theorem mem_joinNL :
    ∀ (L : List (List Char)) (c : Char), c ∈ joinNL L → (∃ p ∈ L, c ∈ p) ∨ c = '\n' := by
  intro L
  induction L with
  | nil => intro c hc; simp [joinNL] at hc
  | cons l ls ih =>
    intro c hc
    cases ls with
    | nil =>
      simp [joinNL] at hc
      exact Or.inl ⟨l, by simp, hc⟩
    | cons l2 ls2 =>
      rw [joinNL_cons_cons] at hc
      rcases List.mem_append.mp hc with h | h
      · exact Or.inl ⟨l, by simp, h⟩
      · rcases List.mem_cons.mp h with h | h
        · exact Or.inr h
        · rcases ih c h with ⟨p, hp, hcp⟩ | h2
          · exact Or.inl ⟨p, by simp [hp], hcp⟩
          · exact Or.inr h2

theorem splitNL_joinNL :
    ∀ L : List (List Char), L ≠ [] → (∀ p ∈ L, ∀ c ∈ p, ¬ c = '\n') →
      splitNL (joinNL L) = L := by
  intro L
  induction L with
  | nil => intro h _; exact absurd rfl h
  | cons l ls ih =>
    intro _ h
    cases ls with
    | nil =>
      exact splitNL_no_nl l (h l (by simp))
    | cons l2 ls2 =>
      rw [joinNL_cons_cons, splitNL_append l _ (h l (by simp))]
      rw [ih (by simp) (fun p hp => h p (List.mem_cons_of_mem l hp))]

theorem tidyLines_again (L : List (List Char))
    (h1 : ∀ p ∈ L, 0 < p.length) (h2 : ∀ p ∈ L, trimJS p = p)
    (h3 : ∀ p ∈ L, ∀ c ∈ p, ¬ c = '\n') :
    tidyLines (joinNL L) = joinNL L := by
  rcases L with _ | ⟨p, ps⟩
  · rfl
  · unfold tidyLines
    rw [splitNL_joinNL (p :: ps) (by simp) h3]
    have hmap : (p :: ps).map trimJS = p :: ps := by
      rw [List.map_congr_left h2, List.map_id']
    rw [hmap]
    have hfil : (p :: ps).filter (fun l => decide (0 < l.length)) = p :: ps := by
      rw [List.filter_eq_self]
      intro a ha
      exact decide_eq_true (h1 a ha)
    rw [hfil]

theorem tidyLines_idem (s : List Char) : tidyLines (tidyLines s) = tidyLines s := by
  have h := tidyLines_again (((splitNL s).map trimJS).filter (fun l => decide (0 < l.length)))
    ?h1 ?h2 ?h3
  case h1 =>
    intro p hp
    have := (List.mem_filter.mp hp).2
    exact of_decide_eq_true this
  case h2 =>
    intro p hp
    rcases List.mem_map.mp (List.mem_filter.mp hp).1 with ⟨q, _, hq⟩
    rw [← hq, trimJS_idem]
  case h3 =>
    intro p hp c hc
    rcases List.mem_map.mp (List.mem_filter.mp hp).1 with ⟨q, hqmem, hq⟩
    rw [← hq] at hc
    exact (mem_of_mem_splitNL s q hqmem c (List.Sublist.mem hc (trimJS_sublist q))).2
  exact h

theorem mem_tidyLines (s : List Char) (c : Char) (hc : c ∈ tidyLines s) :
    c ∈ s ∨ c = '\n' := by
  rcases mem_joinNL _ c hc with ⟨p, hp, hcp⟩ | h
  · rcases List.mem_map.mp (List.mem_filter.mp hp).1 with ⟨q, hqmem, hq⟩
    rw [← hq] at hcp
    exact Or.inl (mem_of_mem_splitNL s q hqmem c (List.Sublist.mem hcp (trimJS_sublist q))).1
  · exact Or.inr h

/-! Plain strings: no tag opener, no entity opener, no directive opener. -/

/-- A character that can start none of the normalizer's regex matches. -/
def plainChar (c : Char) : Bool := !(c == '<') && !(c == '&') && !(c == '[')

theorem scanR_skip (f : List Char → Option (Nat × List Char))
    (hf : ∀ c cs, plainChar c = true → f (c :: cs) = none) :
    ∀ (fuel : Nat) (l : List Char), (∀ c ∈ l, plainChar c = true) → scanR f fuel l = l := by
  intro fuel
  induction fuel with
  | zero => intro l _; cases l <;> rfl
  | succ n ih =>
    intro l h
    cases l with
    | nil => rfl
    | cons c cs =>
      have hc := h c (by simp)
      have hfc := hf c cs hc
      simp only [scanR, hfc]
      rw [ih cs (fun x hx => h x (by simp [hx]))]

theorem replaceAll_skip (f : List Char → Option (Nat × List Char))
    (hf : ∀ c cs, plainChar c = true → f (c :: cs) = none)
    (l : List Char) (h : ∀ c ∈ l, plainChar c = true) : replaceAll f l = l :=
  scanR_skip f hf l.length l h

theorem plainChar_spec (c : Char) (h : plainChar c = true) :
    ¬ c = '<' ∧ ¬ c = '&' ∧ ¬ c = '[' := by
  simp [plainChar] at h
  exact ⟨h.1.1, h.1.2, h.2⟩

theorem styleMatch_skip (c : Char) (cs : List Char) (h : plainChar c = true) :
    styleMatch (c :: cs) = none := by
  have := (plainChar_spec c h).1
  simp [styleMatch, this]

theorem divMatch_skip (c : Char) (cs : List Char) (h : plainChar c = true) :
    divMatch (c :: cs) = none := by
  have := (plainChar_spec c h).1
  simp [divMatch, this]

theorem tagMatch_skip (c : Char) (cs : List Char) (h : plainChar c = true) :
    tagMatch (c :: cs) = none := by
  have := (plainChar_spec c h).1
  simp [tagMatch, this]

theorem playMatch_skip (c : Char) (cs : List Char) (h : plainChar c = true) :
    playMatch (c :: cs) = none := by
  have := (plainChar_spec c h).2.2
  simp [playMatch, this]

theorem litMatch_skip (p : Char) (ps repl : List Char) (c : Char) (cs : List Char)
    (hne : ¬ c = p) : litMatch (p :: ps) repl (c :: cs) = none := by
  have : List.isPrefixOf (p :: ps) (c :: cs) = false := by
    simp [List.isPrefixOf]
    intro hpc
    exact absurd hpc.symm hne
  simp [litMatch, this]

theorem clean_plain (s : List Char) (h : ∀ c ∈ s, plainChar c = true) :
    cleanWithRegex s = tidyLines s := by
  unfold cleanWithRegex
  rw [replaceAll_skip styleMatch styleMatch_skip s h]
  rw [replaceAll_skip divMatch divMatch_skip s h]
  rw [replaceAll_skip tagMatch tagMatch_skip s h]
  rw [replaceAll_skip playMatch playMatch_skip s h]
  rw [replaceAll_skip (litMatch (chars ("&nbsp;")) (chars (" ")))
    (fun c cs hc => litMatch_skip '&' _ _ c cs (plainChar_spec c hc).2.1) s h]
  rw [replaceAll_skip (litMatch (chars ("&amp;")) (chars ("&")))
    (fun c cs hc => litMatch_skip '&' _ _ c cs (plainChar_spec c hc).2.1) s h]
  rw [replaceAll_skip (litMatch (chars ("&lt;")) (chars ("<")))
    (fun c cs hc => litMatch_skip '&' _ _ c cs (plainChar_spec c hc).2.1) s h]
  rw [replaceAll_skip (litMatch (chars ("&gt;")) (chars (">")))
    (fun c cs hc => litMatch_skip '&' _ _ c cs (plainChar_spec c hc).2.1) s h]
  rw [replaceAll_skip (litMatch (chars ("&quot;")) (chars ("\"")))
    (fun c cs hc => litMatch_skip '&' _ _ c cs (plainChar_spec c hc).2.1) s h]

/-- Claim C1 counterexample: on the input consisting of the five characters
of the encoded ampersand entity followed by lt and a semicolon, the
normalizer does NOT produce the literal entity text for less-than, contrary
to the claim. -/
theorem c1_counterexample :
    cleanWithRegex (chars ("&amp;lt;")) ≠ chars ("&lt;") := by decide

/-- Claim C1 (amended): cleanWithRegex decodes the ampersand entity before
the less-than entity, so the sequence `&amp;lt;` double-decodes — its
normalization is the single character `<`, not the literal text `&lt;`. -/
theorem c1_entity_order :
    cleanWithRegex (chars ("&amp;lt;")) = chars ("<") := by decide

/-- Claim C2 counterexample: cleanWithRegex is not idempotent — on the
string `&amp;amp;` one application yields `&amp;`, and a second
application decodes that again to `&`. -/
theorem c2_counterexample :
    cleanWithRegex (cleanWithRegex (chars ("&amp;amp;"))) ≠
      cleanWithRegex (chars ("&amp;amp;")) := by decide

/-- Claim C2 (amended): cleanWithRegex is not idempotent on all markup
strings (re-decoding of freshly produced entity text refutes that, see the
counterexample), but it is idempotent on every string free of the
characters that can open a match — less-than, ampersand and left bracket:
on such strings only the line-tidying stage acts, and that stage is
idempotent. -/
theorem c2_idempotent_on_plain (s : List Char)
    (h : ∀ c ∈ s, plainChar c = true) :
    cleanWithRegex (cleanWithRegex s) = cleanWithRegex s := by
  have h2 : ∀ c ∈ tidyLines s, plainChar c = true := by
    intro c hc
    rcases mem_tidyLines s c hc with h1 | h1
    · exact h c h1
    · rw [h1]; rfl
  rw [clean_plain s h, clean_plain (tidyLines s) h2, tidyLines_idem]

/-- Witness for the amended claim C2 at a concrete plain string with
leading, trailing and duplicated whitespace and blank lines. -/
theorem c2_witness :
    cleanWithRegex (cleanWithRegex (chars ("  alpha beta \n\n  gamma  "))) =
      cleanWithRegex (chars ("  alpha beta \n\n  gamma  ")) :=
  c2_idempotent_on_plain (chars ("  alpha beta \n\n  gamma  ")) (by decide)

/-! The update_cards handler. -/

theorem filterIdxAux_eq {α : Type} (g : Nat → α → Bool) :
    ∀ (l : List α) (n : Nat),
      filterIdxAux g n l =
        List.map Prod.snd ((List.enumFrom n l).filter (fun p => g p.1 p.2)) := by
  intro l
  induction l with
  | nil => intro n; rfl
  | cons a as ih =>
    intro n
    rw [List.enumFrom_cons]
    by_cases hg : g n a = true
    · simp [filterIdxAux, hg, List.filter_cons, ih (n + 1)]
    · simp [filterIdxAux, hg, List.filter_cons, ih (n + 1)]

theorem falsyIds_eq_nil_iff (answers : List Answer) (result : List Bool) :
    falsyIds answers result = [] ↔
      ∀ i, i < answers.length → result.getD i false = true := by
  unfold falsyIds
  rw [List.map_eq_nil_iff, List.filter_eq_nil_iff]
  constructor
  · intro h i hi
    have hmem : (i, answers[i]) ∈ answers.enum := by
      rw [List.mem_enum_iff_getElem?]
      exact List.getElem?_eq_getElem hi
    have := h _ hmem
    simpa using this
  · intro h p hp
    rw [List.mem_enum_iff_getElem?] at hp
    rcases List.getElem?_eq_some.mp hp with ⟨hi, _⟩
    have hres := h p.1 hi
    rw [List.getD_eq_getElem?_getD] at hres
    simp [hres]

/-- Claim C3: update_cards fails, with a message naming exactly the card
identifiers of the answers sitting at falsy positions of the backend
result array, whenever there is any such position; otherwise it returns a
confirmation naming the identifiers of all the answers.  No partial
success is reported as overall success. -/
theorem updateCards_spec (answers : List Answer) (result : List Bool) :
    updateCards answers result =
      (if falsyIds answers result = []
       then Except.ok (("Updated cards ") ++ joinComma (answers.map Answer.cardId))
       else Except.error
         (("Failed to update cards with IDs: ") ++ joinComma (falsyIds answers result)))
    ∧ (falsyIds answers result = [] ↔
        ∀ i, i < answers.length → result.getD i false = true) := by
  refine ⟨?_, falsyIds_eq_nil_iff answers result⟩
  unfold updateCards filterIdx
  rw [filterIdxAux_eq, filterIdxAux_eq]
  have henum : List.enumFrom 0 answers = answers.enum := rfl
  rw [henum]
  by_cases hF : falsyIds answers result = []
  · rw [if_pos hF]
    have hFnil : answers.enum.filter (fun p => !result.getD p.1 false) = [] := by
      have h0 := hF
      unfold falsyIds at h0
      exact List.map_eq_nil_iff.mp h0
    rw [hFnil]
    rw [if_neg (by simp)]
    have hful : answers.enum.filter (fun p => result.getD p.1 false) = answers.enum := by
      rw [List.filter_eq_self]
      intro p hp
      have := List.filter_eq_nil_iff.mp hFnil p hp
      simpa using this
    rw [hful, List.enum_map_snd]
  · rw [if_neg hF]
    have hne : answers.enum.filter (fun p => !result.getD p.1 false) ≠ [] := by
      intro hnil
      apply hF
      unfold falsyIds
      rw [hnil]
      rfl
    have hlen : 0 <
        (List.map Prod.snd (answers.enum.filter (fun p => !result.getD p.1 false))).length := by
      rw [List.length_pos, ← List.length_pos, List.length_map, List.length_pos]
      exact hne
    rw [if_pos hlen]
    unfold falsyIds
    rw [List.map_map]
    rfl

/-- Witness for claim C3, at the spec example: answers for cards 1 and 2
where the backend accepts position 0 and rejects position 1 — the call
fails naming exactly card 2. -/
theorem updateCards_witness :
    updateCards [⟨1, 2⟩, ⟨2, 9⟩] [true, false] =
      Except.error ("Failed to update cards with IDs: 2") := by
  rw [(updateCards_spec [⟨1, 2⟩, ⟨2, 9⟩] [true, false]).1]
  rfl

/-! The get_due_cards and get_new_cards handlers. -/

theorem dueLe_trans :
    ∀ a b c : Card, dueLe a b = true → dueLe b c = true → dueLe a c = true := by
  intro a b c hab hbc
  simp [dueLe] at hab hbc ⊢
  omega

theorem dueLe_total : ∀ a b : Card, (dueLe a b || dueLe b a) = true := by
  intro a b
  simp [dueLe]
  omega

/-- Claim C6: for a numeric count n, get_due_cards returns exactly the
first n entries of the full card list sorted ascending by due key — it
equals the take of the ordered list, has at most n entries, is sorted
ascending by due key, is a prefix of the full ordered list, and the full
ordered list is a permutation of all cards the backend reported, so the
result is a truncation and not a filter. -/
theorem getDueCards_spec (raw : List RawCard) (n : Nat) :
    getDueCards raw (JsNum.int ((n : Int))) = (findCardsAndOrder raw).take n
    ∧ (getDueCards raw (JsNum.int ((n : Int)))).length ≤ n
    ∧ List.Pairwise (fun a b : Card => a.due ≤ b.due)
        (getDueCards raw (JsNum.int ((n : Int))))
    ∧ getDueCards raw (JsNum.int ((n : Int))) <+: findCardsAndOrder raw
    ∧ (findCardsAndOrder raw).Perm (raw.map toCard) := by
  have htake : getDueCards raw (JsNum.int ((n : Int))) = (findCardsAndOrder raw).take n := by
    simp only [getDueCards, jsSlice0]
    rw [if_neg (by omega : ¬ (n : Int) < 0), Int.toNat_natCast]
  have hsorted : List.Pairwise (fun a b : Card => a.due ≤ b.due) (findCardsAndOrder raw) := by
    have hs := List.sorted_mergeSort dueLe_trans dueLe_total (raw.map toCard)
    unfold findCardsAndOrder
    exact hs.imp (fun hab => by simpa [dueLe] using hab)
  refine ⟨htake, ?_, ?_, ?_, List.mergeSort_perm _ _⟩
  · rw [htake, List.length_take]
    exact min_le_left _ _
  · rw [htake]
    exact List.Pairwise.sublist (List.IsPrefix.sublist ( List.take_prefix n _)) hsorted
  · rw [htake]
    exact List.take_prefix n _

/-- Claim C10: when the num argument does not convert to a number, the two
card-fetching tools do not raise an invalid-argument error — they return
the empty card list, whatever the backend reports. -/
theorem nanNum_empty (rawDue rawNew : List RawCard) :
    getDueCards rawDue JsNum.nan = [] ∧ getNewCards rawNew JsNum.nan = [] :=
  ⟨rfl, rfl⟩

/-! The deck provisioner. -/

theorem deckFallback_isOk (b : Backend) (d : String) :
    ∃ r : Bool, (deckFallback b d).1 = Except.ok r := by
  unfold deckFallback
  split
  · exact ⟨_, rfl⟩
  · exact ⟨false, rfl⟩

theorem confirmAfterCreate_isOk (b : Backend) (d : String) :
    ∃ r : Bool, (confirmAfterCreate b d).1 = Except.ok r := by
  unfold confirmAfterCreate
  split
  · exact ⟨_, rfl⟩
  · exact deckFallback_isOk b d

theorem afterCreate_isOk (b : Backend) (d : String)
    (inner : Except Thrown Unit × List Call) :
    ∃ r : Bool, (afterCreate b d inner).1 = Except.ok r := by
  unfold afterCreate
  split
  · exact confirmAfterCreate_isOk b d
  · split
    · exact confirmAfterCreate_isOk b d
    · exact deckFallback_isOk b d

theorem createDeckIfNeeded_isOk (b : Backend) (d : String) :
    ∃ r : Bool, (createDeckIfNeeded b d).1 = Except.ok r := by
  unfold createDeckIfNeeded
  split
  · exact deckFallback_isOk b d
  · split
    · exact ⟨true, rfl⟩
    · exact afterCreate_isOk b d _

theorem fallback_truthful (m : DeckBackend) (d : String) (h3 : m.fail3 = false) :
    (deckFallback (toBackend m d) d).1 = Except.ok (deckExistsAfter m d) := by
  have he : (toBackend m d).deckNames3 = Except.ok (some (sFinal m d)) := by
    simp [toBackend, h3]
  unfold deckFallback
  rw [he]
  simp [jsIncludes, deckExistsAfter]

theorem confirm_truthful (m : DeckBackend) (d : String) (h3 : m.fail3 = false) :
    (confirmAfterCreate (toBackend m d) d).1 = Except.ok (deckExistsAfter m d) := by
  by_cases h2 : m.fail2 = true
  · have he : (toBackend m d).deckNames2 = Except.error errThrown := by
      simp [toBackend, h2]
    unfold confirmAfterCreate
    rw [he]
    exact fallback_truthful m d h3
  · have he : (toBackend m d).deckNames2 = Except.ok (some (sFinal m d)) := by
      simp [toBackend, h2]
    unfold confirmAfterCreate
    rw [he]
    simp [jsIncludes, deckExistsAfter]

theorem afterCreate_truthful (m : DeckBackend) (d : String)
    (inner : Except Thrown Unit × List Call) (h3 : m.fail3 = false) :
    (afterCreate (toBackend m d) d inner).1 = Except.ok (deckExistsAfter m d) := by
  unfold afterCreate
  split
  · exact confirm_truthful m d h3
  · split
    · exact confirm_truthful m d h3
    · exact fallback_truthful m d h3

theorem cdin_truthful (m : DeckBackend) (d : String) (h3 : m.fail3 = false) :
    (createDeckIfNeeded (toBackend m d) d).1 = Except.ok (deckExistsAfter m d) := by
  unfold createDeckIfNeeded
  by_cases h1 : m.fail1 = true
  · have he : (toBackend m d).deckNames1 = Except.error errThrown := by
      simp [toBackend, h1]
    rw [he]
    exact fallback_truthful m d h3
  · have he : (toBackend m d).deckNames1 = Except.ok (some m.s0) := by
      simp [toBackend, h1]
    rw [he]
    by_cases hc : m.s0.contains d = true
    · have hmem : d ∈ m.s0 := by simpa using hc
      have hex : deckExistsAfter m d = true := by
        simp [deckExistsAfter, sFinal, createRuns, raceSet, hmem]
        by_cases hr : m.raceAdd = true <;> simp [hr, hmem]
      simp [jsIncludes, hmem, hex]
    · have hj : jsIncludes (some m.s0) d = false := by simpa [jsIncludes] using hc
      simp [hj]
      exact afterCreate_truthful m d _ h3

theorem fallback_bothfail (m : DeckBackend) (d : String) (h3 : m.fail3 = true) :
    (deckFallback (toBackend m d) d).1 = Except.ok false := by
  have he : (toBackend m d).deckNames3 = Except.error errThrown := by
    simp [toBackend, h3]
  unfold deckFallback
  rw [he]

theorem confirm_bothfail (m : DeckBackend) (d : String)
    (h2 : m.fail2 = true) (h3 : m.fail3 = true) :
    (confirmAfterCreate (toBackend m d) d).1 = Except.ok false := by
  have he : (toBackend m d).deckNames2 = Except.error errThrown := by
    simp [toBackend, h2]
  unfold confirmAfterCreate
  rw [he]
  exact fallback_bothfail m d h3

theorem afterCreate_bothfail (m : DeckBackend) (d : String)
    (inner : Except Thrown Unit × List Call) (h2 : m.fail2 = true) (h3 : m.fail3 = true) :
    (afterCreate (toBackend m d) d inner).1 = Except.ok false := by
  unfold afterCreate
  split
  · exact confirm_bothfail m d h2 h3
  · split
    · exact confirm_bothfail m d h2 h3
    · exact fallback_bothfail m d h3

theorem cdin_bothfail (m : DeckBackend) (d : String)
    (h2 : m.fail2 = true) (h3 : m.fail3 = true) :
    (createDeckIfNeeded (toBackend m d) d).1 =
      Except.ok (!m.fail1 && m.s0.contains d) := by
  unfold createDeckIfNeeded
  by_cases h1 : m.fail1 = true
  · have he : (toBackend m d).deckNames1 = Except.error errThrown := by
      simp [toBackend, h1]
    rw [he]
    have hf : (!m.fail1 && m.s0.contains d) = false := by simp [h1]
    rw [hf]
    exact fallback_bothfail m d h3
  · have he : (toBackend m d).deckNames1 = Except.ok (some m.s0) := by
      simp [toBackend, h1]
    rw [he]
    have hf1 : m.fail1 = false := by simpa using h1
    by_cases hc : m.s0.contains d = true
    · have hmem : d ∈ m.s0 := by simpa using hc
      simp [jsIncludes, hmem, hf1]
    · have hj : jsIncludes (some m.s0) d = false := by simpa [jsIncludes] using hc
      have hnmem : d ∉ m.s0 := by simpa using hc
      have hf : (!m.fail1 && m.s0.contains d) = false := by simp [hnmem]
      rw [hf]
      simp [hj]
      exact afterCreate_bothfail m d _ h2 h3

/-- A truthful backend run on which claim C4 fails: the deck is absent,
creation succeeds, but both deck-name listings after the creation attempt
throw. -/
def mCex : DeckBackend := ⟨[], false, false, none, none, none, true, true⟩

/-- Claim C4 counterexample: with the deck created successfully but both
subsequent deck-name listings failing, createDeckIfNeeded resolves to
false although the deck does exist after the call — so the returned
boolean is not `true iff the deck exists after the call returns`. -/
theorem c4_counterexample :
    (createDeckIfNeeded (toBackend mCex ("Today")) ("Today")).1 = Except.ok false
    ∧ deckExistsAfter mCex ("Today") = true := ⟨rfl, rfl⟩

/-- Claim C4 (amended): for every backend behaviour createDeckIfNeeded
never throws and resolves to a boolean; on a truthful backend whose final
deck-name listing is available the boolean is true iff the deck exists
after the call; and when both listings after the creation attempt fail the
call resolves to false — even if the deck exists — in particular it
returns false when the final re-query itself fails. -/
theorem createDeckIfNeeded_spec :
    (∀ (b : Backend) (d : String), ∃ r : Bool, (createDeckIfNeeded b d).1 = Except.ok r)
    ∧ (∀ (m : DeckBackend) (d : String), m.fail3 = false →
        (createDeckIfNeeded (toBackend m d) d).1 = Except.ok (deckExistsAfter m d))
    ∧ (∀ (m : DeckBackend) (d : String), m.fail2 = true → m.fail3 = true →
        (createDeckIfNeeded (toBackend m d) d).1 =
          Except.ok (!m.fail1 && m.s0.contains d)) :=
  ⟨createDeckIfNeeded_isOk, cdin_truthful, cdin_bothfail⟩

/-- Witness for the amended claim C4 at a concrete truthful backend: the
deck is created and the confirming listing succeeds, so the call reports
exactly the post-call existence of the deck. -/
theorem createDeckIfNeeded_spec_witness :
    (createDeckIfNeeded (toBackend ⟨[], false, false, none, none, none, false, false⟩
        ("Today")) ("Today")).1 =
      Except.ok (deckExistsAfter ⟨[], false, false, none, none, none, false, false⟩ ("Today")) :=
  createDeckIfNeeded_spec.2.1 ⟨[], false, false, none, none, none, false, false⟩ ("Today") rfl

/-- Claim C5: when the creation attempt fails with an error whose message
contains the already-exists signal, and the subsequent deck-name listing
succeeds and reports the deck (the concurrent creator having won the
race), createDeckIfNeeded still resolves to true. -/
theorem createDeck_race_tolerant (b : Backend) (d : String)
    (v1 v2 : Option (List String)) (e : Thrown)
    (h1 : b.deckNames1 = Except.ok v1) (hv1 : jsIncludes v1 d = false)
    (hcr : b.createDeck1 = Except.error e) (he : hasAlready e = true)
    (h2 : b.deckNames2 = Except.ok v2) (hv2 : jsIncludes v2 d = true) :
    (createDeckIfNeeded b d).1 = Except.ok true := by
  have hin : (innerCreate b).1 = Except.error e := by
    unfold innerCreate
    rw [hcr]
  unfold createDeckIfNeeded
  rw [h1]
  simp [hv1]
  unfold afterCreate
  rw [hin]
  simp [he]
  unfold confirmAfterCreate
  rw [h2]
  simp [hv2]

/-- Witness for claim C5: a concrete run in which the initial listing does
not contain the deck, creation throws a deck-already-exists error, and the
re-listing reports the deck. -/
theorem createDeck_race_witness :
    (createDeckIfNeeded
      ⟨Except.ok (some []),
       Except.error ⟨some (chars ("deck Today already exists"))⟩,
       Except.ok (), Except.ok (),
       Except.ok (some [("Today")]), Except.ok (some [("Today")])⟩ ("Today")).1 =
      Except.ok true :=
  createDeck_race_tolerant _ ("Today") (some []) (some [("Today")])
    ⟨some (chars ("deck Today already exists"))⟩ rfl (by decide) rfl (by decide) rfl (by decide)

/-- Claim C9: when the initial deck-name listing succeeds and already
contains the target path, createDeckIfNeeded returns true immediately and
the only backend call of the whole run is that single read-only listing —
no create-deck, no configuration-clone and no configuration-association
call is issued, so the backend deck state is untouched. -/
theorem createDeck_fast_path (b : Backend) (d : String) (v1 : Option (List String))
    (h1 : b.deckNames1 = Except.ok v1) (hv1 : jsIncludes v1 d = true) :
    createDeckIfNeeded b d = (Except.ok true, [Call.deckNamesCall])
    ∧ Call.createDeckCall ∉ (createDeckIfNeeded b d).2
    ∧ Call.cloneCfgCall ∉ (createDeckIfNeeded b d).2
    ∧ Call.setCfgCall ∉ (createDeckIfNeeded b d).2 := by
  have he : createDeckIfNeeded b d = (Except.ok true, [Call.deckNamesCall]) := by
    unfold createDeckIfNeeded
    rw [h1]
    simp [hv1]
  refine ⟨he, ?_, ?_, ?_⟩ <;> rw [he] <;> decide

/-- Witness for claim C9: a backend whose first listing already contains
the target deck. -/
theorem createDeck_fast_path_witness :
    createDeckIfNeeded
      ⟨Except.ok (some [("Today")]), Except.ok (), Except.ok (), Except.ok (),
       Except.ok (some [("Today")]), Except.ok (some [("Today")])⟩ ("Today") =
      (Except.ok true, [Call.deckNamesCall]) :=
  (createDeck_fast_path _ ("Today") (some [("Today")]) rfl (by decide)).1

/-! The transport guard and the method wrapper. -/

/-- Claim C7: a chunk written to the patched stdout is forwarded iff its
string content is obtained and its trimmed form begins with the jsonrpc
envelope marker; whatever is forwarded is the chunk itself, unchanged; and
every dropped write — including when reading the chunk text throws —
reports success to the caller.  Hence no byte sequence whose trimmed form
does not begin with the marker ever reaches the outbound stream. -/
theorem transportGuard_spec (ret : Bool) (c : Chunk) :
    ((patchedStdoutWrite ret c).1 = some c ↔
      ∃ s, chunkToString c = some s ∧ jsonrpcMarker.isPrefixOf (trimJS s) = true)
    ∧ ((patchedStdoutWrite ret c).1 = none ∨ (patchedStdoutWrite ret c).1 = some c)
    ∧ ((patchedStdoutWrite ret c).1 = none → (patchedStdoutWrite ret c).2 = true) := by
  cases hs : chunkToString c with
  | none =>
    refine ⟨?_, ?_, ?_⟩
    · simp [patchedStdoutWrite, hs]
    · simp [patchedStdoutWrite, hs]
    · intro _
      simp [patchedStdoutWrite, hs]
  | some s =>
    by_cases hp : jsonrpcMarker.isPrefixOf (trimJS s) = true
    · refine ⟨?_, ?_, ?_⟩
      · simp [patchedStdoutWrite, hs, hp]
        exact Iff.mp List.isPrefixOf_iff_prefix hp
      · simp [patchedStdoutWrite, hs, hp]
      · intro hnone
        simp [patchedStdoutWrite, hs, hp] at hnone
    · refine ⟨?_, ?_, ?_⟩
      · simp [patchedStdoutWrite, hs, hp]
        exact fun hpre => hp (Iff.mpr List.isPrefixOf_iff_prefix hpre)
      · simp [patchedStdoutWrite, hs, hp]
      · intro _
        simp [patchedStdoutWrite, hs, hp]

/-- Witness for claim C7: the diagnostic line of the spec example is
dropped and its write still reports success. -/
theorem transportGuard_witness :
    (patchedStdoutWrite false (Chunk.strVal (chars ("WARNING: plugin loaded")))).2 = true :=
  (transportGuard_spec false (Chunk.strVal (chars ("WARNING: plugin loaded")))).2.2 (by decide)

/-- Claim C8: for every wrapped backend method call, a thrown SyntaxError
whose message mentions JSON resolves to null instead of propagating; a
propagated error is never such a deserialization failure; any other thrown
error propagates unchanged; and a successful result is passed through. -/
theorem wrapMethod_spec {α : Type} (call : Except JsErr α) :
    (∀ e, call = Except.error e → isJsonSyntaxErr e = true →
      wrapMethod call = Except.ok none)
    ∧ (∀ e, call = Except.error e → isJsonSyntaxErr e = false →
      wrapMethod call = Except.error e)
    ∧ (∀ e, wrapMethod call = Except.error e → isJsonSyntaxErr e = false)
    ∧ (∀ a, call = Except.ok a → wrapMethod call = Except.ok (some a)) := by
  refine ⟨?_, ?_, ?_, ?_⟩
  · intro e hcall he
    rw [hcall]
    simp [wrapMethod, he]
  · intro e hcall he
    rw [hcall]
    simp [wrapMethod, he]
  · intro e hout
    cases call with
    | ok a => simp [wrapMethod] at hout
    | error e0 =>
      by_cases h0 : isJsonSyntaxErr e0 = true
      · simp [wrapMethod, h0] at hout
      · simp [wrapMethod, h0] at hout
        rw [← hout]
        simpa using h0
  · intro a hcall
    rw [hcall]
    simp [wrapMethod]

/-- Witness for claim C8: a JSON SyntaxError thrown by a wrapped method
resolves to null. -/
theorem wrapMethod_witness :
    wrapMethod (Except.error ⟨true, chars ("Unexpected token W in JSON at position 0")⟩ :
        Except JsErr Nat) = Except.ok none :=
  (wrapMethod_spec (Except.error ⟨true, chars ("Unexpected token W in JSON at position 0")⟩ :
      Except JsErr Nat)).1
    ⟨true, chars ("Unexpected token W in JSON at position 0")⟩ rfl (by decide)

